import Mathlib

/-!
The `up` command of azd: `cli/azd/cmd/up.go`.

A shallow embedding of `upFlags.Bind` and `upAction.Run`.

`Run` is sequential Go code that talks to seven collaborators (the
precondition resolver, three action initializers, the middleware runner, the
console and its stderr handle).  The embedding threads three things explicitly:

* the `upFlags` struct that `u.flags` points to (the only memory `Run` writes),
* a state `W` of everything the collaborators own (each collaborator is a
  function on `W`, so its answers may depend on every earlier call),
* the trace of calls `Run` has made so far, with arguments and returned values.

Pointers into the `upFlags` struct are values of `Ptr`.  A child action is a
Go pointer that `Run` dereferences; the initializers are taken to return a
usable action whenever they return a nil error, so the action itself is a value.
Collaborators read the flags struct but do not write it.
-/

namespace cmd

/-- Go `error` values that are not nil; a Go `error` is an `Option GoError`. -/
structure GoError where
  msg : String
  deriving DecidableEq, Repr

/-- Modelled from the spec: `actions.ActionResult` is declared outside `up.go`;
an opaque success payload with an optional human-readable message. -/
structure ActionResult where
  payload : Nat
  message : Option String
  deriving DecidableEq, Repr

/-- A Go pointer to a field of the `upFlags` struct at hand: `nil`, the address
of the field of that struct which has the pointer's type (`&u.flags.provisionFlags`
for a `*provisionFlags`, `&u.flags.deployFlags` for a `*deployFlags`, `&u.envFlag`
for an `*envFlag`), or the address of some other object. -/
inductive Ptr where
  | nil
  | upField
  | foreign (addr : Nat)
  deriving DecidableEq, Repr

/-- The type `*internal.GlobalCommandOptions`: `none` is the nil pointer. -/
abbrev GlobalPtr := Option Nat

/-- The struct `envFlag`, the shared environment selector. -/
structure envFlag where
  environmentName : String
  deriving DecidableEq, Repr

/-- The struct `provisionFlags`: `noProgress` is the field `Run` reads and writes,
`envFlag` the link to the shared environment selector that `setCommon` sets, and
`rest` every other field, which `up.go` never names. -/
structure provisionFlags where
  noProgress : Bool
  envFlag : Ptr
  rest : Nat
  deriving DecidableEq, Repr

/-- The struct `deployFlags`: `serviceName` is the field `Run` reads and writes,
`envFlag` the link to the shared environment selector that `setCommon` sets, and
`rest` every other field, which `up.go` never names. -/
structure deployFlags where
  serviceName : String
  envFlag : Ptr
  rest : Nat
  deriving DecidableEq, Repr

/-- The struct `upFlags` (up.go lines 19-24). -/
structure upFlags where
  provisionFlags : provisionFlags
  deployFlags : deployFlags
  global : GlobalPtr
  envFlag : envFlag
  deriving DecidableEq, Repr

/-- The struct `middleware.Options`, of which `Run` sets `CommandPath` only. -/
structure Options where
  CommandPath : String
  deriving DecidableEq, Repr

/-- The struct behind `*packageAction`; `Run` touches none of its fields. -/
structure packageAction where
  ident : Nat
  deriving DecidableEq, Repr

/-- The struct behind `*provisionAction`: `flags` is a `*provisionFlags`. -/
structure provisionAction where
  flags : Ptr
  ident : Nat
  deriving DecidableEq, Repr

/-- The struct behind `*deployAction`: `flags` is a `*deployFlags`. -/
structure deployAction where
  flags : Ptr
  args : List String
  ident : Nat
  deriving DecidableEq, Repr

/-- The third argument of `RunChildAction`, an `actions.Action`. -/
inductive ChildAction where
  | package (a : packageAction)
  | provision (a : provisionAction)
  | deploy (a : deployAction)
  deriving DecidableEq, Repr

/-- The argument of `output.WithWarningFormat` at up.go line 88. -/
def noProgressWarning : String :=
  "WARNING: The '--no-progress' flag is deprecated and will be removed in a future release."

/-- The argument of `output.WithWarningFormat` at up.go line 97. -/
def serviceWarning : String :=
  "WARNING: The '--service' flag is deprecated and will be removed in a future release."

/-- One call `Run` makes to a collaborator, with what it passed and what came back.

* `stderrWarning text` is `fmt.Fprintln(u.console.Handles().Stderr, output.WithWarningFormat(text))`;
* `runChildAction options action heap result err` is
  `u.runner.RunChildAction(ctx, options, action)` returning `(result, err)`, with
  `heap` the contents of `*u.flags` at the time of the call;
* `consoleMessage text` is `u.console.Message(ctx, text)`. -/
inductive Event where
  | stderrWarning (text : String)
  | ensureSubscriptionAndLocation (err : Option GoError)
  | packageActionInitializer (action : packageAction) (err : Option GoError)
  | provisionActionInitializer (action : provisionAction) (err : Option GoError)
  | deployActionInitializer (action : deployAction) (err : Option GoError)
  | runChildAction (options : Options) (action : ChildAction) (heap : upFlags)
      (result : Option ActionResult) (err : Option GoError)
  | consoleMessage (text : String)
  deriving DecidableEq, Repr

/-- The struct `upAction` (up.go lines 50-59) as the behaviour of what its fields
reach, over the collaborators' state `W`.  `flags` is kept apart: `Run` takes the
struct it points to as an argument and returns it. -/
structure upAction (W : Type) where
  /-- The call `fmt.Fprintln(u.console.Handles().Stderr, output.WithWarningFormat(text))`. -/
  stderrWarning : String → W → W
  /-- The call `provisioning.EnsureSubscriptionAndLocation(ctx, u.console, u.env, u.accountManager)`. -/
  ensureSubscriptionAndLocation : W → Option GoError × W
  packageActionInitializer : W → (packageAction × Option GoError) × W
  provisionActionInitializer : W → (provisionAction × Option GoError) × W
  deployActionInitializer : W → (deployAction × Option GoError) × W
  /-- The call `u.runner.RunChildAction(ctx, options, action)`; the `upFlags` argument is
  what the action can read through its `flags` pointer. -/
  runChildAction : Options → ChildAction → upFlags → W → (Option ActionResult × Option GoError) × W
  /-- The call `u.console.Message(ctx, text)`. -/
  consoleMessage : String → W → W

/-- What a call of `Run` leaves behind: the returned pair, the flags struct, the
collaborators' state and the calls made. -/
structure Outcome (W : Type) where
  result : Option ActionResult
  err : Option GoError
  flags : upFlags
  world : W
  trace : List Event

/-- The method `upAction.Run` (up.go lines 83-148). -/
def upAction.Run {W : Type} (u : upAction W) (flags : upFlags) (w : W) : Outcome W :=
  -- lines 84-91
  let s1 : upFlags × W × List Event :=
    if flags.provisionFlags.noProgress then
      ({ flags with provisionFlags := { flags.provisionFlags with noProgress := false } },
        u.stderrWarning noProgressWarning w,
        [Event.stderrWarning noProgressWarning])
    else (flags, w, [])
  -- lines 93-98
  let s2 : upFlags × W × List Event :=
    if s1.1.deployFlags.serviceName ≠ "" then
      (s1.1, u.stderrWarning serviceWarning s1.2.1, s1.2.2 ++ [Event.stderrWarning serviceWarning])
    else s1
  let flags := s2.1
  -- lines 100-103
  match u.ensureSubscriptionAndLocation s2.2.1 with
  | (some err, w) =>
    ⟨none, some err, flags, w, s2.2.2 ++ [Event.ensureSubscriptionAndLocation (some err)]⟩
  | (none, w) =>
  let t := s2.2.2 ++ [Event.ensureSubscriptionAndLocation none]
  -- lines 105-108
  match u.packageActionInitializer w with
  | ((packageAction, some err), w) =>
    ⟨none, some err, flags, w, t ++ [Event.packageActionInitializer packageAction (some err)]⟩
  | ((packageAction, none), w) =>
  let t := t ++ [Event.packageActionInitializer packageAction none]
  -- lines 109-113
  let packageOptions : Options := { CommandPath := "package" }
  match u.runChildAction packageOptions (ChildAction.package packageAction) flags w with
  | ((r, some err), w) =>
    ⟨none, some err, flags, w,
      t ++ [Event.runChildAction packageOptions (ChildAction.package packageAction) flags r (some err)]⟩
  | ((r, none), w) =>
  let t := t ++ [Event.runChildAction packageOptions (ChildAction.package packageAction) flags r none]
  -- lines 115-118
  match u.provisionActionInitializer w with
  | ((provision, some err), w) =>
    ⟨none, some err, flags, w, t ++ [Event.provisionActionInitializer provision (some err)]⟩
  | ((provision, none), w) =>
  let t := t ++ [Event.provisionActionInitializer provision none]
  -- lines 120-125
  let provision : provisionAction := { provision with flags := Ptr.upField }
  let provisionOptions : Options := { CommandPath := "provision" }
  match u.runChildAction provisionOptions (ChildAction.provision provision) flags w with
  | ((r, some err), w) =>
    ⟨none, some err, flags, w,
      t ++ [Event.runChildAction provisionOptions (ChildAction.provision provision) flags r (some err)]⟩
  | ((r, none), w) =>
  let t := t ++ [Event.runChildAction provisionOptions (ChildAction.provision provision) flags r none]
  -- lines 127-128
  let w := u.consoleMessage "" w
  let t := t ++ [Event.consoleMessage ""]
  -- lines 130-133
  match u.deployActionInitializer w with
  | ((deploy, some err), w) =>
    ⟨none, some err, flags, w, t ++ [Event.deployActionInitializer deploy (some err)]⟩
  | ((deploy, none), w) =>
  let t := t ++ [Event.deployActionInitializer deploy none]
  -- lines 135-140: `deploy.flags` is `&u.flags.deployFlags`, so both writes of
  -- lines 138-139 go through it
  let deploy : deployAction := { deploy with flags := Ptr.upField }
  let s3 : deployAction × upFlags :=
    if flags.deployFlags.serviceName ≠ "" then
      ({ deploy with args := [flags.deployFlags.serviceName] },
        { flags with deployFlags := { flags.deployFlags with serviceName := "" } })
    else (deploy, flags)
  let deploy := s3.1
  let flags := s3.2
  -- lines 141-147
  let deployOptions : Options := { CommandPath := "deploy" }
  match u.runChildAction deployOptions (ChildAction.deploy deploy) flags w with
  | ((r, some err), w) =>
    ⟨none, some err, flags, w,
      t ++ [Event.runChildAction deployOptions (ChildAction.deploy deploy) flags r (some err)]⟩
  | ((deployResult, none), w) =>
    ⟨deployResult, none, flags, w,
      t ++ [Event.runChildAction deployOptions (ChildAction.deploy deploy) flags deployResult none]⟩

/-- The error a call returned to `Run`: nil for the calls that return none. -/
def Event.returnedErr : Event → Option GoError
  | .stderrWarning _ => none
  | .ensureSubscriptionAndLocation err => err
  | .packageActionInitializer _ err => err
  | .provisionActionInitializer _ err => err
  | .deployActionInitializer _ err => err
  | .runChildAction _ _ _ _ err => err
  | .consoleMessage _ => none

/-- The six child-step calls of `Run`: an initializer, or `RunChildAction` with a
given `CommandPath`. -/
inductive Step where
  | packageActionInitializer
  | provisionActionInitializer
  | deployActionInitializer
  | runChildAction (commandPath : String)
  deriving DecidableEq, Repr

/-- The child step an event is a call of, if it is one. -/
def Event.childStep : Event → Option Step
  | .packageActionInitializer _ _ => some .packageActionInitializer
  | .provisionActionInitializer _ _ => some .provisionActionInitializer
  | .deployActionInitializer _ _ => some .deployActionInitializer
  | .runChildAction options _ _ _ _ => some (.runChildAction options.CommandPath)
  | _ => none

/-- The child-step calls of a trace, in the order they were made. -/
def childSteps (t : List Event) : List Step := t.filterMap Event.childStep

/-- The fixed order package, provision, deploy. -/
def expectedSteps : List Step :=
  [.packageActionInitializer, .runChildAction "package",
   .provisionActionInitializer, .runChildAction "provision",
   .deployActionInitializer, .runChildAction "deploy"]

/-- The flags struct after line 90 has run or been skipped: `noProgress` is false. -/
def clearNoProgress (f : upFlags) : upFlags :=
  { f with provisionFlags := { f.provisionFlags with noProgress := false } }

/-- The flags struct after line 139 has run or been skipped: `serviceName` is empty. -/
def clearServiceName (f : upFlags) : upFlags :=
  { f with deployFlags := { f.deployFlags with serviceName := "" } }

/-- The stderr lines of lines 84-98 for the flags `Run` was entered with. -/
def deprecationWarnings (f : upFlags) : List Event :=
  (if f.provisionFlags.noProgress then [Event.stderrWarning noProgressWarning] else []) ++
  (if f.deployFlags.serviceName ≠ "" then [Event.stderrWarning serviceWarning] else [])

/-- The deploy action as line 142 passes it on, from the one the initializer returned. -/
def forwardedDeploy (f : upFlags) (deploy : deployAction) : deployAction :=
  { deploy with
    flags := Ptr.upField
    args := if f.deployFlags.serviceName ≠ "" then [f.deployFlags.serviceName] else deploy.args }

/-- The eight ways through `Run`, each with the values the collaborators returned on it. -/
inductive Path where
  | failEnsure (e : GoError)
  | failPackageInit (pa : packageAction) (e : GoError)
  | failPackageRun (pa : packageAction) (r1 : Option ActionResult) (e : GoError)
  | failProvisionInit (pa : packageAction) (r1 : Option ActionResult) (pr : provisionAction)
      (e : GoError)
  | failProvisionRun (pa : packageAction) (r1 : Option ActionResult) (pr : provisionAction)
      (r2 : Option ActionResult) (e : GoError)
  | failDeployInit (pa : packageAction) (r1 : Option ActionResult) (pr : provisionAction)
      (r2 : Option ActionResult) (da : deployAction) (e : GoError)
  | deployRun (pa : packageAction) (r1 : Option ActionResult) (pr : provisionAction)
      (r2 : Option ActionResult) (da : deployAction) (r3 : Option ActionResult)
      (err : Option GoError)

/-- Events up to the package initializer's return. -/
def eventsPackageInit (pa : packageAction) (err : Option GoError) : List Event :=
  [.ensureSubscriptionAndLocation none, .packageActionInitializer pa err]

/-- Events up to the return of the package run; `f` is the flags struct after line 98. -/
def eventsPackageRun (f : upFlags) (pa : packageAction) (r1 : Option ActionResult)
    (err : Option GoError) : List Event :=
  eventsPackageInit pa none ++ [.runChildAction ⟨"package"⟩ (.package pa) f r1 err]

/-- Events up to the provision initializer's return. -/
def eventsProvisionInit (f : upFlags) (pa : packageAction) (r1 : Option ActionResult)
    (pr : provisionAction) (err : Option GoError) : List Event :=
  eventsPackageRun f pa r1 none ++ [.provisionActionInitializer pr err]

/-- Events up to the return of the provision run. -/
def eventsProvisionRun (f : upFlags) (pa : packageAction) (r1 : Option ActionResult)
    (pr : provisionAction) (r2 : Option ActionResult) (err : Option GoError) : List Event :=
  eventsProvisionInit f pa r1 pr none ++
    [.runChildAction ⟨"provision"⟩ (.provision { pr with flags := Ptr.upField }) f r2 err]

/-- Events up to the deploy initializer's return. -/
def eventsDeployInit (f : upFlags) (pa : packageAction) (r1 : Option ActionResult)
    (pr : provisionAction) (r2 : Option ActionResult) (da : deployAction)
    (err : Option GoError) : List Event :=
  eventsProvisionRun f pa r1 pr r2 none ++ [.consoleMessage "", .deployActionInitializer da err]

/-- Events up to the return of the deploy run. -/
def eventsDeployRun (f : upFlags) (pa : packageAction) (r1 : Option ActionResult)
    (pr : provisionAction) (r2 : Option ActionResult) (da : deployAction)
    (r3 : Option ActionResult) (err : Option GoError) : List Event :=
  eventsDeployInit f pa r1 pr r2 da none ++
    [.runChildAction ⟨"deploy"⟩ (.deploy (forwardedDeploy f da)) (clearServiceName f) r3 err]

/-- The events of a path after the deprecation warnings; `f` is the flags struct after line 98. -/
def Path.events (f : upFlags) : Path → List Event
  | .failEnsure e => [.ensureSubscriptionAndLocation (some e)]
  | .failPackageInit pa e => eventsPackageInit pa (some e)
  | .failPackageRun pa r1 e => eventsPackageRun f pa r1 (some e)
  | .failProvisionInit pa r1 pr e => eventsProvisionInit f pa r1 pr (some e)
  | .failProvisionRun pa r1 pr r2 e => eventsProvisionRun f pa r1 pr r2 (some e)
  | .failDeployInit pa r1 pr r2 da e => eventsDeployInit f pa r1 pr r2 da (some e)
  | .deployRun pa r1 pr r2 da r3 err => eventsDeployRun f pa r1 pr r2 da r3 err

/-- The flags struct a path leaves; `f` is the flags struct after line 98. -/
def Path.flags (f : upFlags) : Path → upFlags
  | .deployRun .. => clearServiceName f
  | _ => f

/-- The error a path returns. -/
def Path.err : Path → Option GoError
  | .failEnsure e => some e
  | .failPackageInit _ e => some e
  | .failPackageRun _ _ e => some e
  | .failProvisionInit _ _ _ e => some e
  | .failProvisionRun _ _ _ _ e => some e
  | .failDeployInit _ _ _ _ _ e => some e
  | .deployRun _ _ _ _ _ _ err => err

/-- The result a path returns. -/
def Path.result : Path → Option ActionResult
  | .deployRun _ _ _ _ _ r3 none => r3
  | _ => none

/-- The type `pflag.FlagSet`, which comes from a library: the names registered so far. -/
structure FlagSet where
  registered : List String
  deriving DecidableEq, Repr

/-- The binders `upFlags.Bind` calls and `up.go` does not define: `envFlag.Bind`,
`provisionFlags.bindNonCommon` and `deployFlags.bindNonCommon`, each given the flag set and the
global options.  Each may rewrite its receiver and the flag set in any way. -/
structure Binders where
  envFlagBind : envFlag → FlagSet → GlobalPtr → envFlag × FlagSet
  provisionBindNonCommon : provisionFlags → FlagSet → GlobalPtr → provisionFlags × FlagSet
  deployBindNonCommon : deployFlags → FlagSet → GlobalPtr → deployFlags × FlagSet

/-- Modelled from the spec: `provisionFlags.setCommon` is defined in another file of the
repository; the "set common" step links the group's shared field to the single
externally-owned environment selector it is handed. -/
def provisionFlags.setCommon (i : provisionFlags) (envFlag : Ptr) : provisionFlags :=
  { i with envFlag := envFlag }

/-- Modelled from the spec: `deployFlags.setCommon` is defined in another file of the
repository; the "set common" step links the group's shared field to the single
externally-owned environment selector it is handed. -/
def deployFlags.setCommon (d : deployFlags) (envFlag : Ptr) : deployFlags :=
  { d with envFlag := envFlag }

/-- One call `upFlags.Bind` makes on an embedded struct. -/
inductive BindCall where
  | envFlagBind
  | provisionBindNonCommon
  | provisionSetCommon (envFlag : Ptr)
  | deployBindNonCommon
  | deploySetCommon (envFlag : Ptr)
  deriving DecidableEq, Repr

/-- What a call of `Bind` leaves behind: the flags struct, the flag set and the calls made. -/
structure Bound where
  flags : upFlags
  flagSet : FlagSet
  calls : List BindCall

/-- The method `upFlags.Bind` (up.go lines 26-34); `Ptr.upField` is `&u.envFlag`. -/
def upFlags.Bind (b : Binders) (u : upFlags) (localSet : FlagSet) (global : GlobalPtr) : Bound :=
  -- line 27
  let r := b.envFlagBind u.envFlag localSet global
  let u : upFlags := { u with envFlag := r.1 }
  let calls := [BindCall.envFlagBind]
  -- line 28
  let u : upFlags := { u with global := global }
  -- line 30
  let r := b.provisionBindNonCommon u.provisionFlags r.2 global
  let u : upFlags := { u with provisionFlags := r.1 }
  let calls := calls ++ [BindCall.provisionBindNonCommon]
  -- line 31
  let u : upFlags := { u with provisionFlags := u.provisionFlags.setCommon Ptr.upField }
  let calls := calls ++ [BindCall.provisionSetCommon Ptr.upField]
  -- line 32
  let r := b.deployBindNonCommon u.deployFlags r.2 global
  let u : upFlags := { u with deployFlags := r.1 }
  let calls := calls ++ [BindCall.deployBindNonCommon]
  -- line 33
  let u : upFlags := { u with deployFlags := u.deployFlags.setCommon Ptr.upField }
  let calls := calls ++ [BindCall.deploySetCommon Ptr.upField]
  ⟨u, r.2, calls⟩

/-- The environment name read through an `*envFlag` held inside the flags struct `u`; only the
selector `u.envFlag` is in reach. -/
def upFlags.environmentVia (u : upFlags) : Ptr → Option String
  | Ptr.upField => some u.envFlag.environmentName
  | _ => none

/-- Collaborators for the worked examples: the state counts the calls that can return an
error, and call number `failAt` (counted from 0: the precondition, then the six child steps)
returns one.  A failing `RunChildAction` still returns a result next to its error. -/
def scripted (failAt : Nat) : upAction Nat where
  stderrWarning _ n := n
  ensureSubscriptionAndLocation n := (if n = failAt then some ⟨"no subscription"⟩ else none, n + 1)
  packageActionInitializer n := ((⟨n⟩, if n = failAt then some ⟨"no package"⟩ else none), n + 1)
  provisionActionInitializer n :=
    ((⟨Ptr.foreign 7, n⟩, if n = failAt then some ⟨"no provision"⟩ else none), n + 1)
  deployActionInitializer n :=
    ((⟨Ptr.nil, ["api"], n⟩, if n = failAt then some ⟨"no deploy"⟩ else none), n + 1)
  runChildAction options _ _ n :=
    ((some ⟨n, some options.CommandPath⟩, if n = failAt then some ⟨options.CommandPath⟩ else none),
      n + 1)
  consoleMessage _ n := n

/-- Flags with both deprecated flags set, for the worked examples. -/
def bothDeprecated : upFlags :=
  { provisionFlags := { noProgress := true, envFlag := Ptr.upField, rest := 0 }
    deployFlags := { serviceName := "web", envFlag := Ptr.upField, rest := 0 }
    global := some 1
    envFlag := { environmentName := "dev" } }

/-- Flags with neither deprecated flag set, for the worked examples. -/
def noneDeprecated : upFlags :=
  { provisionFlags := { noProgress := false, envFlag := Ptr.upField, rest := 0 }
    deployFlags := { serviceName := "", envFlag := Ptr.upField, rest := 0 }
    global := some 1
    envFlag := { environmentName := "dev" } }

/-- The flags struct `after` differs from `before` at most by the two deprecated-flag
rewrites: `noProgress` gone from true to false, `serviceName` gone from a non-empty string to
the empty one. -/
def deprecatedRewritesOnly (before after : upFlags) : Prop :=
  after.global = before.global ∧
  after.envFlag = before.envFlag ∧
  after.provisionFlags.envFlag = before.provisionFlags.envFlag ∧
  after.provisionFlags.rest = before.provisionFlags.rest ∧
  after.deployFlags.envFlag = before.deployFlags.envFlag ∧
  after.deployFlags.rest = before.deployFlags.rest ∧
  (after.provisionFlags.noProgress = before.provisionFlags.noProgress ∨
    (before.provisionFlags.noProgress = true ∧ after.provisionFlags.noProgress = false)) ∧
  (after.deployFlags.serviceName = before.deployFlags.serviceName ∨
    (before.deployFlags.serviceName ≠ "" ∧ after.deployFlags.serviceName = ""))

theorem clearNoProgress_of_false (f : upFlags) (h : f.provisionFlags.noProgress = false) :
    clearNoProgress f = f := by
  obtain ⟨⟨np, ef, rest⟩, d, g, e⟩ := f
  simp only at h
  simp [clearNoProgress, h]

theorem clearServiceName_of_empty (f : upFlags) (h : f.deployFlags.serviceName = "") :
    clearServiceName f = f := by
  obtain ⟨p, ⟨sn, ef, rest⟩, g, e⟩ := f
  simp only at h
  simp [clearServiceName, h]

/-- Every call of `Run` follows one of the eight paths. -/
theorem Run_path {W : Type} (u : upAction W) (flags : upFlags) (w : W) :
    ∃ p : Path,
      (u.Run flags w).result = p.result ∧
      (u.Run flags w).err = p.err ∧
      (u.Run flags w).flags = p.flags (clearNoProgress flags) ∧
      (u.Run flags w).trace = deprecationWarnings flags ++ p.events (clearNoProgress flags) := by
  obtain ⟨⟨np, pe, prest⟩, ⟨sn, de, drest⟩, g, ef⟩ := flags
  cases np <;> by_cases h2 : sn = "" <;>
    simp only [upAction.Run, h2, if_true, if_false, ne_eq, not_true_eq_false, not_false_eq_true,
      Bool.false_eq_true] <;>
    (split
     · next e _ _ => exact ⟨.failEnsure e, by simp [Path.result, Path.err, Path.flags, Path.events, eventsPackageInit, eventsPackageRun, eventsProvisionInit, eventsProvisionRun, eventsDeployInit, eventsDeployRun, deprecationWarnings, clearNoProgress, clearServiceName, forwardedDeploy, h2]⟩
     · split
       · next pa e _ _ => exact ⟨.failPackageInit pa e, by simp [Path.result, Path.err, Path.flags, Path.events, eventsPackageInit, eventsPackageRun, eventsProvisionInit, eventsProvisionRun, eventsDeployInit, eventsDeployRun, deprecationWarnings, clearNoProgress, clearServiceName, forwardedDeploy, h2]⟩
       · next pa _ _ =>
         split
         · next r1 e _ _ => exact ⟨.failPackageRun pa r1 e, by simp [Path.result, Path.err, Path.flags, Path.events, eventsPackageInit, eventsPackageRun, eventsProvisionInit, eventsProvisionRun, eventsDeployInit, eventsDeployRun, deprecationWarnings, clearNoProgress, clearServiceName, forwardedDeploy, h2]⟩
         · next r1 _ _ =>
           split
           · next pr e _ _ => exact ⟨.failProvisionInit pa r1 pr e, by simp [Path.result, Path.err, Path.flags, Path.events, eventsPackageInit, eventsPackageRun, eventsProvisionInit, eventsProvisionRun, eventsDeployInit, eventsDeployRun, deprecationWarnings, clearNoProgress, clearServiceName, forwardedDeploy, h2]⟩
           · next pr _ _ =>
             split
             · next r2 e _ _ => exact ⟨.failProvisionRun pa r1 pr r2 e, by simp [Path.result, Path.err, Path.flags, Path.events, eventsPackageInit, eventsPackageRun, eventsProvisionInit, eventsProvisionRun, eventsDeployInit, eventsDeployRun, deprecationWarnings, clearNoProgress, clearServiceName, forwardedDeploy, h2]⟩
             · next r2 _ _ =>
               split
               · next da e _ _ => exact ⟨.failDeployInit pa r1 pr r2 da e, by simp [Path.result, Path.err, Path.flags, Path.events, eventsPackageInit, eventsPackageRun, eventsProvisionInit, eventsProvisionRun, eventsDeployInit, eventsDeployRun, deprecationWarnings, clearNoProgress, clearServiceName, forwardedDeploy, h2]⟩
               · next da _ _ =>
                 split
                 · next r3 e _ _ => exact ⟨.deployRun pa r1 pr r2 da r3 (some e), by simp [Path.result, Path.err, Path.flags, Path.events, eventsPackageInit, eventsPackageRun, eventsProvisionInit, eventsProvisionRun, eventsDeployInit, eventsDeployRun, deprecationWarnings, clearNoProgress, clearServiceName, forwardedDeploy, h2]⟩
                 · next r3 _ _ => exact ⟨.deployRun pa r1 pr r2 da r3 none, by simp [Path.result, Path.err, Path.flags, Path.events, eventsPackageInit, eventsPackageRun, eventsProvisionInit, eventsProvisionRun, eventsDeployInit, eventsDeployRun, deprecationWarnings, clearNoProgress, clearServiceName, forwardedDeploy, h2]⟩)


theorem serviceWarning_ne_noProgressWarning : serviceWarning ≠ noProgressWarning := by
  decide

theorem childSteps_deprecationWarnings (f : upFlags) : childSteps (deprecationWarnings f) = [] := by
  unfold deprecationWarnings childSteps
  split_ifs <;> simp [Event.childStep]

theorem returnedErr_of_mem_deprecationWarnings (f : upFlags) (ev : Event)
    (h : ev ∈ deprecationWarnings f) : ev.returnedErr = none := by
  simp only [deprecationWarnings, List.mem_append] at h
  rcases h with h | h <;> split_ifs at h <;> simp at h <;> subst h <;> rfl

theorem childStep_of_mem_deprecationWarnings (f : upFlags) (ev : Event)
    (h : ev ∈ deprecationWarnings f) : ev.childStep = none := by
  simp only [deprecationWarnings, List.mem_append] at h
  rcases h with h | h <;> split_ifs at h <;> simp at h <;> subst h <;> rfl

theorem childSteps_append (s t : List Event) : childSteps (s ++ t) = childSteps s ++ childSteps t := by
  simp [childSteps, List.filterMap_append]

theorem pairwise_of_forall_left {α : Type} (P Q : α → Prop) (l : List α) (h : ∀ a ∈ l, P a) :
    l.Pairwise (fun a b => Q b → P a) := by
  induction l with
  | nil => exact List.Pairwise.nil
  | cons x xs ih =>
    refine List.Pairwise.cons ?_ (ih fun a ha => h a (List.mem_cons_of_mem _ ha))
    intro b _ _
    exact h x (List.mem_cons_self _ _)

/-- C1: the child-step calls of `Run` are a prefix of package initializer, package run,
provision initializer, provision run, deploy initializer, deploy run; each is made at most
once; a child step is called only after the precondition resolver has returned nil and every
call made before it has returned nil; and once the package initializer or the package run has
returned an error, neither the provision nor the deploy initializer is called. -/
theorem Run_child_steps_in_order {W : Type} (u : upAction W) (flags : upFlags) (w : W) :
    childSteps (u.Run flags w).trace <+: expectedSteps ∧
    (childSteps (u.Run flags w).trace).Nodup ∧
    (u.Run flags w).trace.Pairwise
      (fun earlier later => later.childStep ≠ none → earlier.returnedErr = none) ∧
    (childSteps (u.Run flags w).trace ≠ [] →
      Event.ensureSubscriptionAndLocation none ∈ (u.Run flags w).trace) ∧
    ((∃ ev ∈ (u.Run flags w).trace,
        (ev.childStep = some Step.packageActionInitializer ∨
          ev.childStep = some (Step.runChildAction "package")) ∧ ev.returnedErr ≠ none) →
      ∀ ev ∈ (u.Run flags w).trace,
        ev.childStep ≠ some Step.provisionActionInitializer ∧
        ev.childStep ≠ some Step.deployActionInitializer) := by
  obtain ⟨p, -, -, -, ht⟩ := Run_path u flags w
  rw [ht, childSteps_append, childSteps_deprecationWarnings, List.nil_append]
  refine ⟨?_, ?_, ?_, ?_, ?_⟩
  · cases p <;> simp [Path.events, eventsPackageInit, eventsPackageRun, eventsProvisionInit, eventsProvisionRun, eventsDeployInit, eventsDeployRun, childSteps, Event.childStep, expectedSteps]
  · cases p <;> simp [Path.events, eventsPackageInit, eventsPackageRun, eventsProvisionInit, eventsProvisionRun, eventsDeployInit, eventsDeployRun, childSteps, Event.childStep]
  · rw [List.pairwise_append]
    refine ⟨pairwise_of_forall_left _ _ _ (returnedErr_of_mem_deprecationWarnings flags), ?_, ?_⟩
    · cases p <;> simp [Path.events, eventsPackageInit, eventsPackageRun, eventsProvisionInit, eventsProvisionRun, eventsDeployInit, eventsDeployRun, Event.childStep, Event.returnedErr]
    · intro a ha b _ _
      exact returnedErr_of_mem_deprecationWarnings flags a ha
  · cases p <;> simp [Path.events, eventsPackageInit, eventsPackageRun, eventsProvisionInit, eventsProvisionRun, eventsDeployInit, eventsDeployRun, childSteps, Event.childStep]
  · rintro ⟨ev, hev, hstep, herr⟩ ev2 hev2
    rw [List.mem_append] at hev hev2
    rcases hev with hev | hev
    · rw [childStep_of_mem_deprecationWarnings flags ev hev] at hstep
      simp at hstep
    rcases hev2 with hev2 | hev2
    · rw [childStep_of_mem_deprecationWarnings flags ev2 hev2]
      simp
    · cases p <;> simp [Path.events, eventsPackageInit, eventsPackageRun, eventsProvisionInit, eventsProvisionRun, eventsDeployInit, eventsDeployRun] at hev hev2 <;>
        rcases hev with rfl | rfl | rfl | rfl | rfl | rfl | rfl | rfl <;>
        simp [Event.childStep, Event.returnedErr] at hstep herr <;>
        rcases hev2 with rfl | rfl | rfl | rfl | rfl | rfl | rfl | rfl <;>
        simp [Event.childStep]

theorem mem_deprecationWarnings (f : upFlags) (ev : Event) (h : ev ∈ deprecationWarnings f) :
    ev = Event.stderrWarning noProgressWarning ∨ ev = Event.stderrWarning serviceWarning := by
  simp only [deprecationWarnings, List.mem_append] at h
  rcases h with h | h <;> split_ifs at h <;> simp at h <;> simp [h]

theorem filterMap_returnedErr_deprecationWarnings (f : upFlags) :
    (deprecationWarnings f).filterMap Event.returnedErr = [] := by
  unfold deprecationWarnings
  split_ifs <;> simp [Event.returnedErr]

/-- C2: when `EnsureSubscriptionAndLocation` returns a non-nil error `e`, `Run` returns
`(nil, e)` and that call is the last one it makes: no initializer, no `RunChildAction` and no
`console.Message` is called. -/
theorem Run_precondition_failure {W : Type} (u : upAction W) (flags : upFlags) (w : W)
    (e : GoError)
    (h : Event.ensureSubscriptionAndLocation (some e) ∈ (u.Run flags w).trace) :
    (u.Run flags w).result = none ∧
    (u.Run flags w).err = some e ∧
    (u.Run flags w).trace.getLast? = some (Event.ensureSubscriptionAndLocation (some e)) ∧
    childSteps (u.Run flags w).trace = [] ∧
    ∀ text, Event.consoleMessage text ∉ (u.Run flags w).trace := by
  obtain ⟨p, hr, he, -, ht⟩ := Run_path u flags w
  rw [hr, he, ht, childSteps_append, childSteps_deprecationWarnings, List.nil_append]
  rw [ht, List.mem_append] at h
  rcases h with h | h
  · rcases mem_deprecationWarnings flags _ h with h | h <;> simp at h
  · have hw : ∀ text, Event.consoleMessage text ∉ deprecationWarnings flags := by
      intro text hmem
      rcases mem_deprecationWarnings flags _ hmem with h | h <;> simp at h
    cases p <;> simp [Path.events, eventsPackageInit, eventsPackageRun, eventsProvisionInit, eventsProvisionRun, eventsDeployInit, eventsDeployRun] at h
    subst h
    simp [Path.events, eventsPackageInit, eventsPackageRun, eventsProvisionInit, eventsProvisionRun, eventsDeployInit, eventsDeployRun, Path.result, Path.err, childSteps, Event.childStep, List.getLast?_append, hw]

/-- The `scripted 0` run: the precondition resolver fails and `Run` stops there. -/
theorem Run_precondition_failure_witness :
    Event.ensureSubscriptionAndLocation (some ⟨"no subscription"⟩) ∈
      ((scripted 0).Run bothDeprecated 0).trace ∧
    ((scripted 0).Run bothDeprecated 0).result = none ∧
    ((scripted 0).Run bothDeprecated 0).err = some ⟨"no subscription"⟩ ∧
    ((scripted 0).Run bothDeprecated 0).trace.getLast? =
      some (Event.ensureSubscriptionAndLocation (some ⟨"no subscription"⟩)) ∧
    childSteps ((scripted 0).Run bothDeprecated 0).trace = [] ∧
    ∀ text, Event.consoleMessage text ∉ ((scripted 0).Run bothDeprecated 0).trace :=
  ⟨by decide, Run_precondition_failure (scripted 0) bothDeprecated 0 ⟨"no subscription"⟩ (by decide)⟩

/-- C3: when the provision initializer or the provision run returns an error, the deploy
initializer is not called, `RunChildAction` is not called with `CommandPath` "deploy", and
`console.Message` is not called. -/
theorem Run_provision_failure {W : Type} (u : upAction W) (flags : upFlags) (w : W)
    (h : ∃ ev ∈ (u.Run flags w).trace,
      (ev.childStep = some Step.provisionActionInitializer ∨
        ev.childStep = some (Step.runChildAction "provision")) ∧ ev.returnedErr ≠ none) :
    ∀ ev ∈ (u.Run flags w).trace,
      ev.childStep ≠ some Step.deployActionInitializer ∧
      ev.childStep ≠ some (Step.runChildAction "deploy") ∧
      ∀ text, ev ≠ Event.consoleMessage text := by
  obtain ⟨p, -, -, -, ht⟩ := Run_path u flags w
  rw [ht] at h ⊢
  obtain ⟨ev, hev, hstep, herr⟩ := h
  intro ev2 hev2
  rw [List.mem_append] at hev hev2
  rcases hev with hev | hev
  · rw [childStep_of_mem_deprecationWarnings flags ev hev] at hstep
    simp at hstep
  rcases hev2 with hev2 | hev2
  · rcases mem_deprecationWarnings flags _ hev2 with h | h <;> simp [h, Event.childStep]
  · cases p <;> simp [Path.events, eventsPackageInit, eventsPackageRun, eventsProvisionInit, eventsProvisionRun, eventsDeployInit, eventsDeployRun] at hev hev2 <;>
      rcases hev with rfl | rfl | rfl | rfl | rfl | rfl | rfl | rfl <;>
      simp [Event.childStep, Event.returnedErr] at hstep herr <;>
      rcases hev2 with rfl | rfl | rfl | rfl | rfl | rfl | rfl | rfl <;>
      simp [Event.childStep]

/-- The `scripted 4` run: the provision run fails, and the trace has no deploy initializer,
no deploy run and no `console.Message`. -/
theorem Run_provision_failure_witness :
    (∃ ev ∈ ((scripted 4).Run bothDeprecated 0).trace,
      (ev.childStep = some Step.provisionActionInitializer ∨
        ev.childStep = some (Step.runChildAction "provision")) ∧ ev.returnedErr ≠ none) ∧
    (∀ ev ∈ ((scripted 4).Run bothDeprecated 0).trace,
      ev.childStep ≠ some Step.deployActionInitializer ∧
      ev.childStep ≠ some (Step.runChildAction "deploy") ∧
      ∀ text, ev ≠ Event.consoleMessage text) :=
  ⟨by decide, Run_provision_failure (scripted 4) bothDeprecated 0 (by decide)⟩

theorem exists_mem_events_returnedErr (f : upFlags) (p : Path) :
    ∃ ev ∈ p.events f, ev.returnedErr = p.err := by
  cases p <;> simp [Path.events, eventsPackageInit, eventsPackageRun, eventsProvisionInit, eventsProvisionRun, eventsDeployInit, eventsDeployRun, Path.err, Event.returnedErr]

/-- C4: when every call `Run` makes returns a nil error, the trace ends with the provision run,
`console.Message(ctx, "")`, the deploy initializer and the deploy run, in that order;
`console.Message` is not called before that; and `Run` returns `(r, nil)` with `r` the result
the deploy run returned. -/
theorem Run_all_succeed {W : Type} (u : upAction W) (flags : upFlags) (w : W)
    (h : ∀ ev ∈ (u.Run flags w).trace, ev.returnedErr = none) :
    ∃ (pre : List Event) (provision : provisionAction) (heap1 : upFlags)
      (r2 : Option ActionResult) (da deploy : deployAction) (heap2 : upFlags)
      (r3 : Option ActionResult),
      (u.Run flags w).trace = pre ++
        [Event.runChildAction ⟨"provision"⟩ (ChildAction.provision provision) heap1 r2 none,
         Event.consoleMessage "",
         Event.deployActionInitializer da none,
         Event.runChildAction ⟨"deploy"⟩ (ChildAction.deploy deploy) heap2 r3 none] ∧
      (∀ text, Event.consoleMessage text ∉ pre) ∧
      (u.Run flags w).result = r3 ∧
      (u.Run flags w).err = none := by
  obtain ⟨p, hr, he, -, ht⟩ := Run_path u flags w
  rw [hr, he, ht]
  rw [ht] at h
  have hw : ∀ text, Event.consoleMessage text ∉ deprecationWarnings flags := by
    intro text hmem
    rcases mem_deprecationWarnings flags _ hmem with h | h <;> simp at h
  have herr : p.err = none := by
    obtain ⟨ev, hev, hp⟩ := exists_mem_events_returnedErr (clearNoProgress flags) p
    rw [← hp]
    exact h ev (List.mem_append_right _ hev)
  cases p with
  | deployRun pa r1 pr r2 da r3 err =>
    simp only [Path.err] at herr
    subst herr
    refine ⟨deprecationWarnings flags ++ eventsProvisionInit (clearNoProgress flags) pa r1 pr none,
      { pr with flags := Ptr.upField }, clearNoProgress flags, r2, da,
      forwardedDeploy (clearNoProgress flags) da, clearServiceName (clearNoProgress flags), r3,
      ?_, ?_, rfl, rfl⟩
    · simp [Path.events, eventsPackageInit, eventsPackageRun, eventsProvisionInit, eventsProvisionRun, eventsDeployInit, eventsDeployRun]
    · simp [Path.events, eventsPackageInit, eventsPackageRun, eventsProvisionInit, eventsProvisionRun, eventsDeployInit, eventsDeployRun, hw]
  | _ => simp [Path.err] at herr

/-- The `scripted 7` run: no call fails, and `Run` returns the deploy run's result. -/
theorem Run_all_succeed_witness :
    (∀ ev ∈ ((scripted 7).Run bothDeprecated 0).trace, ev.returnedErr = none) ∧
    ∃ (pre : List Event) (provision : provisionAction) (heap1 : upFlags)
      (r2 : Option ActionResult) (da deploy : deployAction) (heap2 : upFlags)
      (r3 : Option ActionResult),
      ((scripted 7).Run bothDeprecated 0).trace = pre ++
        [Event.runChildAction ⟨"provision"⟩ (ChildAction.provision provision) heap1 r2 none,
         Event.consoleMessage "",
         Event.deployActionInitializer da none,
         Event.runChildAction ⟨"deploy"⟩ (ChildAction.deploy deploy) heap2 r3 none] ∧
      (∀ text, Event.consoleMessage text ∉ pre) ∧
      ((scripted 7).Run bothDeprecated 0).result = r3 ∧
      ((scripted 7).Run bothDeprecated 0).err = none :=
  ⟨by decide, Run_all_succeed (scripted 7) bothDeprecated 0 (by decide)⟩

/-- C5: `Run` returns a non-nil error exactly when some call it made returned one; the error
it returns is the error of the first call that returned one; and with a non-nil error the
result it returns is nil. -/
theorem Run_returns_first_error {W : Type} (u : upAction W) (flags : upFlags) (w : W) :
    ((u.Run flags w).err ≠ none ↔ ∃ ev ∈ (u.Run flags w).trace, ev.returnedErr ≠ none) ∧
    (u.Run flags w).err = ((u.Run flags w).trace.filterMap Event.returnedErr).head? ∧
    ((u.Run flags w).err ≠ none → (u.Run flags w).result = none) := by
  obtain ⟨p, hr, he, -, ht⟩ := Run_path u flags w
  rw [hr, he, ht, List.filterMap_append, filterMap_returnedErr_deprecationWarnings,
    List.nil_append]
  refine ⟨?_, ?_, ?_⟩
  · constructor
    · intro h
      obtain ⟨ev, hev, hp⟩ := exists_mem_events_returnedErr (clearNoProgress flags) p
      exact ⟨ev, List.mem_append_right _ hev, by rw [hp]; exact h⟩
    · rintro ⟨ev, hev, herr⟩
      rw [List.mem_append] at hev
      rcases hev with hev | hev
      · exact absurd (returnedErr_of_mem_deprecationWarnings flags ev hev) herr
      · cases p <;> simp [Path.events, eventsPackageInit, eventsPackageRun, eventsProvisionInit, eventsProvisionRun, eventsDeployInit, eventsDeployRun] at hev <;>
          rcases hev with rfl | rfl | rfl | rfl | rfl | rfl | rfl | rfl <;>
          simp [Event.returnedErr, Path.err] at herr ⊢
        exact herr
  · cases p with
    | deployRun pa r1 pr r2 da r3 err => cases err <;> simp [Path.events, eventsPackageInit, eventsPackageRun, eventsProvisionInit, eventsProvisionRun, eventsDeployInit, eventsDeployRun, Event.returnedErr, Path.err]
    | _ => simp [Path.events, eventsPackageInit, eventsPackageRun, eventsProvisionInit, eventsProvisionRun, eventsDeployInit, eventsDeployRun, Event.returnedErr, Path.err]
  · cases p with
    | deployRun pa r1 pr r2 da r3 err => cases err <;> simp [Path.result, Path.err]
    | _ => simp [Path.result]

theorem count_stderrWarning_events (f : upFlags) (p : Path) (text : String) :
    (p.events f).count (Event.stderrWarning text) = 0 := by
  cases p <;> simp [Path.events, eventsPackageInit, eventsPackageRun, eventsProvisionInit, eventsProvisionRun, eventsDeployInit, eventsDeployRun, List.count_cons]

theorem count_noProgressWarning (f : upFlags) :
    (deprecationWarnings f).count (Event.stderrWarning noProgressWarning) =
      if f.provisionFlags.noProgress then 1 else 0 := by
  have h := serviceWarning_ne_noProgressWarning
  unfold deprecationWarnings
  split_ifs <;> simp_all [List.count_cons]

theorem count_serviceWarning (f : upFlags) :
    (deprecationWarnings f).count (Event.stderrWarning serviceWarning) =
      if f.deployFlags.serviceName ≠ "" then 1 else 0 := by
  have h := serviceWarning_ne_noProgressWarning.symm
  unfold deprecationWarnings
  split_ifs <;> simp_all [List.count_cons]

/-- C6: with `noProgress` true on entry, `Run` writes the '--no-progress' warning to stderr
exactly once, whatever later calls return, and every `RunChildAction` call that is passed the
provision action passes it with `flags` pointing at `u.flags.provisionFlags`, whose
`noProgress` is false at that time; with `noProgress` false on entry, `Run` never writes that
warning. -/
theorem Run_noProgress_warning {W : Type} (u : upAction W) (flags : upFlags) (w : W) :
    (flags.provisionFlags.noProgress = true →
      (u.Run flags w).trace.count (Event.stderrWarning noProgressWarning) = 1 ∧
      ∀ options a heap r err,
        Event.runChildAction options (ChildAction.provision a) heap r err ∈ (u.Run flags w).trace →
          a.flags = Ptr.upField ∧ heap.provisionFlags.noProgress = false) ∧
    (flags.provisionFlags.noProgress = false →
      (u.Run flags w).trace.count (Event.stderrWarning noProgressWarning) = 0) := by
  obtain ⟨p, -, -, -, ht⟩ := Run_path u flags w
  rw [ht, List.count_append, count_stderrWarning_events, count_noProgressWarning]
  refine ⟨fun h => ⟨by simp [h], ?_⟩, fun h => by simp [h]⟩
  intro options a heap r err hmem
  rw [List.mem_append] at hmem
  rcases hmem with hmem | hmem
  · rcases mem_deprecationWarnings flags _ hmem with h | h <;> simp at h
  · cases p <;> simp [Path.events, eventsPackageInit, eventsPackageRun, eventsProvisionInit, eventsProvisionRun, eventsDeployInit, eventsDeployRun] at hmem <;>
      obtain ⟨-, rfl, rfl, -, -⟩ := hmem <;>
      simp [clearNoProgress]

/-- C7: with `serviceName` equal to a non-empty `s` on entry, `Run` writes the '--service'
warning to stderr exactly once, whatever later calls return, and every `RunChildAction` call
that is passed the deploy action passes it with `flags` pointing at `u.flags.deployFlags`,
whose `serviceName` is empty at that time, and with `args` equal to `[s]`; with `serviceName`
empty on entry, `Run` never writes that warning and passes the deploy action with the `args`
of the action the deploy initializer returned. -/
theorem Run_serviceName_warning {W : Type} (u : upAction W) (flags : upFlags) (w : W) :
    (flags.deployFlags.serviceName ≠ "" →
      (u.Run flags w).trace.count (Event.stderrWarning serviceWarning) = 1 ∧
      ∀ options a heap r err,
        Event.runChildAction options (ChildAction.deploy a) heap r err ∈ (u.Run flags w).trace →
          a.flags = Ptr.upField ∧ heap.deployFlags.serviceName = "" ∧
          a.args = [flags.deployFlags.serviceName]) ∧
    (flags.deployFlags.serviceName = "" →
      (u.Run flags w).trace.count (Event.stderrWarning serviceWarning) = 0 ∧
      ∀ options a heap r err,
        Event.runChildAction options (ChildAction.deploy a) heap r err ∈ (u.Run flags w).trace →
          ∃ da, Event.deployActionInitializer da none ∈ (u.Run flags w).trace ∧
            (∀ da2 err2, Event.deployActionInitializer da2 err2 ∈ (u.Run flags w).trace →
              da2 = da) ∧
            a.args = da.args) := by
  obtain ⟨p, -, -, -, ht⟩ := Run_path u flags w
  rw [ht, List.count_append, count_stderrWarning_events, count_serviceWarning]
  have hw : ∀ ev ∈ deprecationWarnings flags, ∃ text, ev = Event.stderrWarning text := by
    intro ev hev
    rcases mem_deprecationWarnings flags _ hev with h | h <;> exact ⟨_, h⟩
  refine ⟨fun h => ⟨by simp [h], ?_⟩, fun h => ⟨by simp [h], ?_⟩⟩
  · intro options a heap r err hmem
    rw [List.mem_append] at hmem
    rcases hmem with hmem | hmem
    · obtain ⟨text, htext⟩ := hw _ hmem
      simp at htext
    · cases p <;> simp [Path.events, eventsPackageInit, eventsPackageRun, eventsProvisionInit, eventsProvisionRun, eventsDeployInit, eventsDeployRun] at hmem
      obtain ⟨-, rfl, rfl, -, -⟩ := hmem
      simp [clearNoProgress, clearServiceName, forwardedDeploy, h]
  · intro options a heap r err hmem
    rw [List.mem_append] at hmem
    rcases hmem with hmem | hmem
    · obtain ⟨text, htext⟩ := hw _ hmem
      simp at htext
    · cases p <;> simp [Path.events, eventsPackageInit, eventsPackageRun, eventsProvisionInit, eventsProvisionRun, eventsDeployInit, eventsDeployRun] at hmem
      obtain ⟨-, rfl, rfl, -, -⟩ := hmem
      rename_i pa r1 pr r2 da r3 e
      refine ⟨da, ?_, ?_, ?_⟩
      · simp [Path.events, eventsPackageInit, eventsPackageRun, eventsProvisionInit, eventsProvisionRun, eventsDeployInit, eventsDeployRun]
      · intro da2 err2 hmem2
        rw [List.mem_append] at hmem2
        rcases hmem2 with hmem2 | hmem2
        · obtain ⟨text, htext⟩ := hw _ hmem2
          simp at htext
        · simp [Path.events, eventsPackageInit, eventsPackageRun, eventsProvisionInit, eventsProvisionRun, eventsDeployInit, eventsDeployRun] at hmem2
          exact hmem2.1
      · simp [clearNoProgress, forwardedDeploy, h]

theorem deprecatedRewritesOnly_clearNoProgress (f : upFlags) :
    deprecatedRewritesOnly f (clearNoProgress f) := by
  obtain ⟨⟨np, pe, prest⟩, ⟨sn, de, drest⟩, g, ef⟩ := f
  cases np <;> simp [deprecatedRewritesOnly, clearNoProgress]

theorem deprecatedRewritesOnly_clearServiceName (f : upFlags) :
    deprecatedRewritesOnly f (clearServiceName (clearNoProgress f)) := by
  obtain ⟨⟨np, pe, prest⟩, ⟨sn, de, drest⟩, g, ef⟩ := f
  by_cases h : sn = "" <;> cases np <;>
    simp [deprecatedRewritesOnly, clearNoProgress, clearServiceName, h]

/-- C8 fails as stated: on the `scripted 5` run the deploy initializer returns an error, so
`Run` returns that error and never passes the deploy action to `RunChildAction`, and yet
`console.Message(ctx, "")` has been called. -/
theorem Run_separator_without_deploy_run :
    ((scripted 5).Run noneDeprecated 0).err = some ⟨"no deploy"⟩ ∧
    (∀ ev ∈ ((scripted 5).Run noneDeprecated 0).trace,
      ev.childStep ≠ some (Step.runChildAction "deploy")) ∧
    Event.deployActionInitializer ⟨Ptr.nil, ["api"], 5⟩ (some ⟨"no deploy"⟩) ∈
      ((scripted 5).Run noneDeprecated 0).trace ∧
    Event.consoleMessage "" ∈ ((scripted 5).Run noneDeprecated 0).trace := by
  decide

/-- C8 (amended): `console.Message` is called with the empty string only and at most once; it
has been called exactly when the provision run returned a nil error, which is exactly when the
deploy initializer has been called; so whenever the deploy initializer is never called,
`console.Message` is never called, and whenever the deploy action is run the separator has been
printed. -/
theorem Run_separator_iff_deploy_initializer_called {W : Type} (u : upAction W)
    (flags : upFlags) (w : W) :
    (∀ text, Event.consoleMessage text ∈ (u.Run flags w).trace → text = "") ∧
    (u.Run flags w).trace.count (Event.consoleMessage "") ≤ 1 ∧
    (Event.consoleMessage "" ∈ (u.Run flags w).trace ↔
      ∃ a heap r, Event.runChildAction ⟨"provision"⟩ a heap r none ∈ (u.Run flags w).trace) ∧
    (Event.consoleMessage "" ∈ (u.Run flags w).trace ↔
      ∃ da err, Event.deployActionInitializer da err ∈ (u.Run flags w).trace) ∧
    (∀ ev ∈ (u.Run flags w).trace, ev.childStep = some (Step.runChildAction "deploy") →
      Event.consoleMessage "" ∈ (u.Run flags w).trace) := by
  obtain ⟨p, -, -, -, ht⟩ := Run_path u flags w
  rw [ht]
  have hw : ∀ ev ∈ deprecationWarnings flags, ∃ text, ev = Event.stderrWarning text := by
    intro ev hev
    rcases mem_deprecationWarnings flags _ hev with h | h <;> exact ⟨_, h⟩
  have hw1 : ∀ text, Event.consoleMessage text ∉ deprecationWarnings flags := by
    intro text hmem
    obtain ⟨t, ht⟩ := hw _ hmem
    simp at ht
  have hw2 : ∀ o a heap r e, Event.runChildAction o a heap r e ∉ deprecationWarnings flags := by
    intro o a heap r e hmem
    obtain ⟨t, ht⟩ := hw _ hmem
    simp at ht
  have hw3 : ∀ da e, Event.deployActionInitializer da e ∉ deprecationWarnings flags := by
    intro da e hmem
    obtain ⟨t, ht⟩ := hw _ hmem
    simp at ht
  have hw4 : (deprecationWarnings flags).count (Event.consoleMessage "") = 0 :=
    List.count_eq_zero.mpr (hw1 "")
  refine ⟨?_, ?_, ?_, ?_, ?_⟩
  · intro text hmem
    rw [List.mem_append] at hmem
    rcases hmem with hmem | hmem
    · exact absurd hmem (hw1 text)
    · cases p <;> simp [Path.events, eventsPackageInit, eventsPackageRun, eventsProvisionInit, eventsProvisionRun, eventsDeployInit, eventsDeployRun] at hmem <;> exact hmem
  · rw [List.count_append, hw4]
    cases p <;> simp [Path.events, eventsPackageInit, eventsPackageRun, eventsProvisionInit, eventsProvisionRun, eventsDeployInit, eventsDeployRun, List.count_cons]
  · simp only [List.mem_append, hw1, hw2, false_or]
    cases p <;> simp [Path.events, eventsPackageInit, eventsPackageRun, eventsProvisionInit, eventsProvisionRun, eventsDeployInit, eventsDeployRun]
  · simp only [List.mem_append, hw1, hw3, false_or]
    cases p <;> simp [Path.events, eventsPackageInit, eventsPackageRun, eventsProvisionInit, eventsProvisionRun, eventsDeployInit, eventsDeployRun]
  · intro ev hev hstep
    rw [List.mem_append] at hev ⊢
    rcases hev with hev | hev
    · rw [childStep_of_mem_deprecationWarnings flags ev hev] at hstep
      simp at hstep
    · right
      cases p <;> simp [Path.events, eventsPackageInit, eventsPackageRun, eventsProvisionInit, eventsProvisionRun, eventsDeployInit, eventsDeployRun] at hev ⊢ <;>
        rcases hev with rfl | rfl | rfl | rfl | rfl | rfl | rfl | rfl <;>
        simp [Event.childStep] at hstep

/-- C10: the flags struct `Run` leaves, and every flags struct a child sees during `Run`,
differs from the one `Run` was entered with at most by `noProgress` gone from true to false and
`serviceName` gone from non-empty to empty; and `serviceName` keeps its value on entry unless
the deploy initializer has returned a nil error. -/
theorem Run_flag_writes {W : Type} (u : upAction W) (flags : upFlags) (w : W) :
    deprecatedRewritesOnly flags (u.Run flags w).flags ∧
    (∀ options a heap r err,
      Event.runChildAction options a heap r err ∈ (u.Run flags w).trace →
        deprecatedRewritesOnly flags heap) ∧
    ((∀ da, Event.deployActionInitializer da none ∉ (u.Run flags w).trace) →
      (u.Run flags w).flags.deployFlags.serviceName = flags.deployFlags.serviceName) := by
  obtain ⟨p, -, -, hf, ht⟩ := Run_path u flags w
  rw [hf, ht]
  have h1 := deprecatedRewritesOnly_clearNoProgress flags
  have h2 := deprecatedRewritesOnly_clearServiceName flags
  refine ⟨?_, ?_, ?_⟩
  · cases p <;> simp only [Path.flags] <;> assumption
  · intro options a heap r err hmem
    rw [List.mem_append] at hmem
    rcases hmem with hmem | hmem
    · rcases mem_deprecationWarnings flags _ hmem with h | h <;> simp at h
    · have hheap : heap = clearNoProgress flags ∨
          heap = clearServiceName (clearNoProgress flags) := by
        cases p <;> simp [Path.events, eventsPackageInit, eventsPackageRun, eventsProvisionInit, eventsProvisionRun, eventsDeployInit, eventsDeployRun] at hmem <;> tauto
      rcases hheap with rfl | rfl <;> assumption
  · intro h
    cases p with
    | deployRun pa r1 pr r2 da r3 err =>
      exact absurd (List.mem_append_right _ (by simp [Path.events, eventsPackageInit, eventsPackageRun, eventsProvisionInit, eventsProvisionRun, eventsDeployInit, eventsDeployRun])) (h da)
    | _ => simp [Path.flags, clearNoProgress]

/-- C9: `Bind` calls, after `envFlag.Bind`, the provision group's `bindNonCommon` and then its
`setCommon`, then the deploy group's `bindNonCommon` and then its `setCommon`, and hands both
`setCommon` calls the same `&u.envFlag`; afterwards both groups link to that one selector and
read the same environment name through it, also once the selector is given another value, and
the same holds after a second `Bind` on the struct, whatever the binders do. -/
theorem Bind_shares_envFlag (b : Binders) (u : upFlags) (localSet : FlagSet) (global : GlobalPtr) :
    (u.Bind b localSet global).calls =
      [BindCall.envFlagBind,
       BindCall.provisionBindNonCommon, BindCall.provisionSetCommon Ptr.upField,
       BindCall.deployBindNonCommon, BindCall.deploySetCommon Ptr.upField] ∧
    (u.Bind b localSet global).flags.provisionFlags.envFlag = Ptr.upField ∧
    (u.Bind b localSet global).flags.deployFlags.envFlag = Ptr.upField ∧
    (∀ e : envFlag,
      upFlags.environmentVia { (u.Bind b localSet global).flags with envFlag := e }
          (u.Bind b localSet global).flags.provisionFlags.envFlag = some e.environmentName ∧
      upFlags.environmentVia { (u.Bind b localSet global).flags with envFlag := e }
          (u.Bind b localSet global).flags.deployFlags.envFlag = some e.environmentName) ∧
    ∀ (b2 : Binders) (localSet2 : FlagSet) (global2 : GlobalPtr),
      ((u.Bind b localSet global).flags.Bind b2 localSet2 global2).flags.provisionFlags.envFlag =
        Ptr.upField ∧
      ((u.Bind b localSet global).flags.Bind b2 localSet2 global2).flags.deployFlags.envFlag =
        Ptr.upField ∧
      ∀ e : envFlag,
        upFlags.environmentVia
            { ((u.Bind b localSet global).flags.Bind b2 localSet2 global2).flags with envFlag := e }
            ((u.Bind b localSet global).flags.Bind b2 localSet2 global2).flags.provisionFlags.envFlag =
          some e.environmentName ∧
        upFlags.environmentVia
            { ((u.Bind b localSet global).flags.Bind b2 localSet2 global2).flags with envFlag := e }
            ((u.Bind b localSet global).flags.Bind b2 localSet2 global2).flags.deployFlags.envFlag =
          some e.environmentName := by
  simp [upFlags.Bind, provisionFlags.setCommon, deployFlags.setCommon, upFlags.environmentVia]

end cmd
